import Mathlib

/-!
Shallow embedding of the structural-extraction and graph-canonicalization
pipeline of the Student_Second_Brain repository
(handwritten_notes_processor: diagram_detector.py, region_consolidator.py,
diagram_processor.py, graph_refiner.py, schema_generator.py), together with
theorems settling the frozen claims about it.

Modelling conventions, used consistently below:
* Python dicts become structures; bbox lists [x1,y1,x2,y2] become the
  structure BBox with fields in the same order.
* All pixel coordinates are integers in the source (cv2 bounding rects and
  OCR boxes), so coordinates are embedded as Int.  Where the source computes
  fractional quantities (centers divided by 2, thresholds times 0.5/0.9/1.5/1.8,
  Euclidean distances), the comparison is stated multiplied out over Int
  (doubled centers, times-10 thresholds, squared distances), which preserves
  every order comparison exactly; each such spot carries a comment.
* Python's stable list.sort/sorted is embedded as a stable insertion sort
  (stableSortBy below): the output of a stable sort is uniquely determined by
  the key order and the input order, so this is observationally equal.
* uuid.uuid4() draws are modelled by an explicit stream of fresh ids
  (fresh : Nat -> String) consumed in call order; the stream is an input of
  the embedding because the source draws fresh randomness on every run.
* Python dict assignment (later writes overwrite) is modelled by functional
  update on String -> Option String.
-/

namespace HNP

/-! ## Generic helpers -/

/-- Lowercasing a string character-wise; Python str.lower on the ASCII data
that flows through this pipeline. -/
def strLower (s : String) : String := ⟨s.toList.map Char.toLower⟩

/-- Substring containment: Python's `needle in hay` for strings. -/
def substrIn (needle hay : String) : Bool :=
  hay.toList.tails.any (fun s => needle.toList.isPrefixOf s)

/-- Strip whitespace from both ends of a character list. -/
def trimChars (cs : List Char) : List Char :=
  ((cs.dropWhile Char.isWhitespace).reverse.dropWhile Char.isWhitespace).reverse

/-- Python str.strip() with no argument (String.trim of the standard
library, re-implemented structurally). -/
def pyStrip (s : String) : String := ⟨trimChars s.toList⟩

/-- Accumulating scan behind pySplit; acc holds the current word
reversed. -/
def splitWsAux : List Char → List Char → List String
  | [], acc => if acc = [] then [] else [String.mk acc.reverse]
  | c :: cs, acc =>
    if c.isWhitespace then
      if acc = [] then splitWsAux cs []
      else String.mk acc.reverse :: splitWsAux cs []
    else splitWsAux cs (c :: acc)

/-- Python str.split() with no argument: split on whitespace runs, dropping
empty pieces. -/
def pySplit (s : String) : List String := splitWsAux s.toList []

/-- Python sep.join(parts) (String.intercalate of the standard library,
re-implemented structurally). -/
def strJoin (sep : String) : List String → String
  | [] => ""
  | [s] => s
  | s :: rest => s ++ sep ++ strJoin sep rest

/-- Stable insertion of an element into a (sorted) list: the new element goes
before the first element it compares le to, hence before equal elements that
came later in the original list. -/
def stableInsert (le : α → α → Bool) (a : α) : List α → List α
  | [] => [a]
  | b :: bs => if le a b then a :: b :: bs else b :: stableInsert le a bs

/-- Stable sort (insertion sort).  Python's list.sort/sorted is stable; a
stable sort's output is uniquely determined by key order and input order, so
this is observationally equal to the source's sort. -/
def stableSortBy (le : α → α → Bool) : List α → List α
  | [] => []
  | x :: xs => stableInsert le x (stableSortBy le xs)

/-- Functional update for the dict model: later writes overwrite earlier
ones, as in Python. -/
def dupd (m : String → Option String) (k v : String) : String → Option String :=
  fun q => if q = k then some v else m q

/-! ## Geometry -/

/-- Axis-aligned bounding box [x1, y1, x2, y2] in pixel space. -/
structure BBox where
  x1 : Int
  y1 : Int
  x2 : Int
  y2 : Int
deriving DecidableEq, Repr

/-- Union of two bboxes: min of mins, max of maxes.  This is the bbox-merge
used by every merge operation in the source. -/
def bboxUnion (a b : BBox) : BBox :=
  ⟨min a.x1 b.x1, min a.y1 b.y1, max a.x2 b.x2, max a.y2 b.y2⟩

/-- Doubled center of a bbox: (x1+x2, y1+y2).  The source computes
((x1+x2)/2, (y1+y2)/2) in float; all its uses are order comparisons and
differences, which are invariant under doubling, so we carry the doubled
center to stay in Int. -/
def center2 (b : BBox) : Int × Int := (b.x1 + b.x2, b.y1 + b.y2)

/-- Squared Euclidean distance between two doubled centers.  The source sorts
by math.hypot of the true centers; sorting by the squared distance of the
doubled centers is the same order (x ↦ sqrt x / 2 is strictly monotone). -/
def dist2 (a b : Int × Int) : Int := (a.1 - b.1) * (a.1 - b.1) + (a.2 - b.2) * (a.2 - b.2)

/-! ## GraphRefiner (graph_refiner.py) data model -/

/-- Graph node as built by DiagramProcessor and consumed by GraphRefiner:
{"id", "label", "type", "bbox"}. -/
structure GNode where
  nid : String
  label : String
  ntype : String
  bbox : BBox
deriving DecidableEq, Repr

/-- Raw graph edge from DiagramProcessor:
{"from", "to", "relation", "connector_id"}.  (from is a Lean keyword, hence
the field names efrom/eto.) -/
structure GEdge where
  efrom : String
  eto : String
  relation : String
  connectorId : String
deriving DecidableEq, Repr

/-- Refined edge as emitted by GraphRefiner: {"from", "to", "relation"}. -/
structure REdge where
  efrom : String
  eto : String
  relation : String
deriving DecidableEq, Repr

/-- Graph object {"type": "graph", "graph": {"nodes", "edges"}, "source",
"bbox"}; the inner "graph" dict is flattened into the two list fields. -/
structure GraphObj where
  nodes : List GNode
  edges : List GEdge
  source : String
  bbox : BBox
deriving DecidableEq, Repr

/-- Refined graph object (edges have lost their connector_id). -/
structure RGraphObj where
  nodes : List GNode
  edges : List REdge
  source : String
  bbox : BBox
deriving DecidableEq, Repr

/-! ## GraphRefiner: label normalization -/

/-- Character class of the leading-strip regex [\d\.\-\•\s]+ in
GraphRefiner normalize. -/
def isBulletChar (c : Char) : Bool :=
  c.isDigit || c = '.' || c = '-' || c = '•' || c.isWhitespace

/-- Character class of the trailing-strip regex [\.\:\,]+$ in
GraphRefiner normalize. -/
def isTrailPunct (c : Char) : Bool :=
  c = '.' || c = ':' || c = ','

/-- Word character for the \b boundary of Python's re: alphanumeric or
underscore. -/
def isWordChar (c : Char) : Bool := c.isAlphanum || c = '_'

/-- Check that the pattern occurs at the head of cs as a whole word:
the pattern matches case-insensitively and the character after it (if any)
is not a word character.  pat is given lowercased. -/
def wordAt (pat : List Char) (cs : List Char) : Bool :=
  pat.isPrefixOf (cs.map Char.toLower) &&
    (match cs.drop pat.length with
     | [] => true
     | c :: _ => !isWordChar c)

/-- Replace every whole-word, case-insensitive occurrence of pat by repl.
prevWord says whether the previous character was a word character (so that
the left word-boundary of re's backslash-b holds exactly when it is false).
Models re.sub on a whole-word, IGNORECASE pattern, for the purely alphabetic
patterns of the corrections table (all of which end in a word character, so
after a replacement the boundary state is that of a word character). -/
def replaceWordAux (pat repl : List Char) : Nat → Bool → List Char → List Char
  | 0, _, _ => []
  | _ + 1, _, [] => []
  | fuel + 1, prevWord, c :: rest =>
    if pat ≠ [] ∧ prevWord = false ∧ wordAt pat (c :: rest) = true then
      repl ++ replaceWordAux pat repl fuel true (rest.drop (pat.length - 1))
    else
      c :: replaceWordAux pat repl fuel (isWordChar c) rest

/-- Whole-word case-insensitive replacement on strings.  The fuel argument
of the scan only makes the recursion structural; each step consumes at least
one character, so the text length is enough fuel. -/
def replaceWord (pat repl text : String) : String :=
  ⟨replaceWordAux (strLower pat).toList repl.toList text.toList.length false text.toList⟩

/-- Corrections table of GraphRefiner (self.corrections). -/
def corrections : List (String × String) :=
  [("datal", "Data"), ("folowing", "following"), ("followinge", "following"),
   ("dandel", "and"), ("dand", "and")]

/-- Label normalization of GraphRefiner: strip leading bullet characters,
strip, strip trailing punctuation, then apply the whole-word corrections
table case-insensitively. -/
def normalizeLabel (text : String) : String :=
  if text = "" then "" else
  let t1 : List Char := text.toList.dropWhile isBulletChar
  let t2 : String := pyStrip (String.mk t1)
  let t3 : List Char := (t2.toList.reverse.dropWhile isTrailPunct).reverse
  corrections.foldl (fun acc p => replaceWord p.1 p.2 acc) (String.mk t3)

/-! ## GraphRefiner: adjacent text-node merging -/

/-- Merge test of GraphRefiner shouldMergeText: both nodes must be
text_blobs, their vertical centers within the taller height, and the
horizontal gap in [-0.9*width1, 1.5*max_h).  Comparisons are multiplied out:
centers are doubled (so the height bound doubles too) and the gap bounds are
scaled by 10. -/
def shouldMergeText (n1 n2 : GNode) : Bool :=
  if n1.ntype ≠ "text_blob" || n2.ntype ≠ "text_blob" then false
  else
    let b1 := n1.bbox
    let b2 := n2.bbox
    -- doubled centers: cy2x = 2*cy; |cy1-cy2| > max_h*1.0 becomes the doubled test
    let cy1x : Int := b1.y1 + b1.y2
    let cy2x : Int := b2.y1 + b2.y2
    let h1 := b1.y2 - b1.y1
    let h2 := b2.y2 - b2.y1
    let maxH := max h1 h2
    -- abs(cy1 - cy2) > max_h * 1.0, on doubled centers; abs via natAbs cast
    if ((cy1x - cy2x).natAbs : Int) > 2 * maxH then false
    else
      let distX := b2.x1 - b1.x2
      let width1 := b1.x2 - b1.x1
      -- (-width1*0.9 <= distX < maxH*1.5) scaled by 10
      decide ((-(width1 * 9) ≤ distX * 10) ∧ (distX * 10 < maxH * 15))

/-- Inner scan of the merge loop: the current node absorbs every later node
that shouldMergeText accepts (label concatenation if the absorbed label is
nonempty, bbox union, map entry absorbed-id -> current id); nodes that fail
the test are kept for the next round, and the scan continues past them just
as the source's inner for-loop does.  Returns the grown current node, the
surviving later nodes, and the merge-map entries recorded. -/
def absorbText (cur : GNode) : List GNode → GNode × List GNode × List (String × String)
  | [] => (cur, [], [])
  | n :: rest =>
    if shouldMergeText cur n then
      let newLabel := if n.label ≠ "" then pyStrip (cur.label ++ " " ++ n.label) else cur.label
      let cur2 : GNode := { cur with label := newLabel, bbox := bboxUnion cur.bbox n.bbox }
      let r := absorbText cur2 rest
      (r.1, r.2.1, (n.nid, cur.nid) :: r.2.2)
    else
      let r := absorbText cur rest
      (r.1, n :: r.2.1, r.2.2)

theorem absorbText_survivors_length (cur : GNode) (l : List GNode) :
    (absorbText cur l).2.1.length ≤ l.length := by
  induction l generalizing cur with
  | nil => simp [absorbText]
  | cons a rest ih =>
    simp only [absorbText]
    split
    · exact Nat.le_trans (ih _) (Nat.le_succ _)
    · simpa using ih cur

/-- Outer loop of mergeAdjacentTextNodes on the already-sorted node list:
each head node absorbs what it can from its tail; the merge map records
head-id -> head-id for every survivor and absorbed-id -> head-id for every
absorbed node.  The fuel argument only makes the recursion structural; each
round consumes the head node, so the list length is enough fuel (the
survivor list absorbText returns is never longer than its input, see
absorbText_survivors_length). -/
def mergeAdjacentSorted : Nat → List GNode → List GNode × List (String × String)
  | 0, _ => ([], [])
  | _ + 1, [] => ([], [])
  | fuel + 1, n :: rest =>
    let r := absorbText n rest
    let o := mergeAdjacentSorted fuel r.2.1
    (r.1 :: o.1, (n.nid, n.nid) :: (r.2.2 ++ o.2))

/-- Sort key of mergeAdjacentTextNodes: (bbox y1, bbox x1), compared
lexicographically as Python compares tuples. -/
def nodeYXle (a b : GNode) : Bool :=
  decide (a.bbox.y1 < b.bbox.y1 ∨ (a.bbox.y1 = b.bbox.y1 ∧ a.bbox.x1 ≤ b.bbox.x1))

/-- GraphRefiner mergeAdjacentTextNodes: sort by (y, x), then run the
absorbing scan.  Returns the merged node list and the merge map as an
update-ordered dict. -/
def mergeAdjacentTextNodes (nodes : List GNode) :
    List GNode × (String → Option String) :=
  match nodes with
  | [] => ([], fun _ => none)
  | _ =>
    let sortedNodes := stableSortBy nodeYXle nodes
    let r := mergeAdjacentSorted sortedNodes.length sortedNodes
    (r.1, fun k => (r.2.reverse.find? (fun p => p.1 = k)).map (fun p => p.2))

/-! ## GraphRefiner: deduplication -/

/-- Loop body of deduplicateNodes, threading the label -> id dict and the
old-id -> new-id dict.  Nodes whose lowercased label is empty are skipped
entirely; a repeated label maps the node's id to the first-seen node's id;
a fresh label keeps the node and maps its id to itself. -/
def dedupAux (labelMap idMap : String → Option String) :
    List GNode → List GNode × (String → Option String)
  | [] => ([], idMap)
  | n :: rest =>
    let l := strLower n.label
    if l = "" then dedupAux labelMap idMap rest
    else
      match labelMap l with
      | some existingId => dedupAux labelMap (dupd idMap n.nid existingId) rest
      | none =>
        let r := dedupAux (dupd labelMap l n.nid) (dupd idMap n.nid n.nid) rest
        (n :: r.1, r.2)

/-- GraphRefiner deduplicateNodes: merge nodes with identical lowercased
labels onto the first occurrence; returns the unique nodes and the
old-id -> surviving-id map. -/
def deduplicateNodes (nodes : List GNode) :
    List GNode × (String → Option String) :=
  dedupAux (fun _ => none) (fun _ => none) nodes

/-! ## GraphRefiner: relation inference -/

/-- GraphRefiner spatialRelation: compare the center deltas of the endpoint
bboxes; if |dx| > |dy| the relation flows by the sign of dx, otherwise it is
leads_to for either sign of dy (the source tests dy > 0 but returns leads_to
in both branches).  Deltas are computed on doubled centers, which preserves
both the comparison and the sign tests. -/
def spatialRelation (src tgt : GNode) : String :=
  let sc := center2 src.bbox
  let tc := center2 tgt.bbox
  let dx := tc.1 - sc.1
  let dy := tc.2 - sc.2
  if dx.natAbs > dy.natAbs then
    if dx > 0 then "flows_to" else "flows_from"
  else
    if dy > 0 then "leads_to" else "leads_to"

/-- GraphRefiner inferRelation: keyword-pair rules on the lowercased labels
first, spatial fallback otherwise. -/
def inferRelation (src tgt : GNode) : String :=
  let sLbl := strLower src.label
  let tLbl := strLower tgt.label
  if substrIn "data" sLbl && substrIn "program" tLbl then "input_to"
  else if substrIn "learning" sLbl && substrIn "model" tLbl then "produces"
  else if substrIn "experience" sLbl && substrIn "model" tLbl then "improves"
  else if substrIn "model" sLbl && substrIn "machine learning" tLbl then "defined_as"
  else spatialRelation src tgt

/-! ## GraphRefiner: single-graph refinement and merge stage -/

/-- Edge rewiring of refineSingleGraph: each edge's endpoints go through the
text-merge map then the dedup map (composed); the edge is kept only when both
resolved ids exist among the surviving nodes and differ, and its relation is
re-inferred from the resolved endpoint nodes. -/
def rewireEdges (textMergeMap dedupMap : String → Option String)
    (nodes : List GNode) : List GEdge → List REdge
  | [] => []
  | edge :: rest =>
    let midSrc := (textMergeMap edge.efrom).getD edge.efrom
    let midTgt := (textMergeMap edge.eto).getD edge.eto
    let finalSrc := (dedupMap midSrc).getD midSrc
    let finalTgt := (dedupMap midTgt).getD midTgt
    let srcExists := nodes.any (fun n => n.nid = finalSrc)
    let tgtExists := nodes.any (fun n => n.nid = finalTgt)
    if srcExists && tgtExists && finalSrc ≠ finalTgt then
      match nodes.find? (fun n => n.nid = finalSrc),
            nodes.find? (fun n => n.nid = finalTgt) with
      | some nodeSrc, some nodeTgt =>
        ⟨finalSrc, finalTgt, inferRelation nodeSrc nodeTgt⟩ ::
          rewireEdges textMergeMap dedupMap nodes rest
      | _, _ => rewireEdges textMergeMap dedupMap nodes rest
    else rewireEdges textMergeMap dedupMap nodes rest

/-- GraphRefiner refineSingleGraph: normalize labels, merge adjacent text
nodes, deduplicate, then rewire the edges through the composed maps. -/
def refineSingleGraph (g : GraphObj) : RGraphObj :=
  let normed := g.nodes.map (fun n => { n with label := normalizeLabel n.label })
  let m1 := mergeAdjacentTextNodes normed
  let m2 := deduplicateNodes m1.1
  let newEdges := rewireEdges m1.2 m2.2 m2.1 g.edges
  { nodes := m2.1, edges := newEdges, source := g.source, bbox := g.bbox }

/-- GraphRefiner mergeGraphList: concatenate node and edge lists, union the
bboxes, keep the first graph's source.  The source folds min/max starting
from plus/minus infinity; for the nonempty lists this is ever called on that
equals folding the union from the first bbox.  (For an empty list the source
returns an empty dict; we return a junk object, unreachable from refine.) -/
def mergeGraphList (graphList : List GraphObj) : GraphObj :=
  match graphList with
  | [] => { nodes := [], edges := [], source := "unknown", bbox := ⟨0, 0, 0, 0⟩ }
  | g :: gs =>
    gs.foldl
      (fun acc h =>
        { nodes := acc.nodes ++ h.nodes, edges := acc.edges ++ h.edges,
          source := acc.source, bbox := bboxUnion acc.bbox h.bbox })
      { nodes := g.nodes, edges := g.edges, source := g.source, bbox := g.bbox }

/-- GraphRefiner areGraphsClose: vertical distance between the two bboxes
under 100 (the x threshold parameter is unused in the source). -/
def areGraphsClose (g1 g2 : GraphObj) : Bool :=
  let b1 := g1.bbox
  let b2 := g2.bbox
  let yDist : Int := if b2.y1 > b1.y1 then max 0 (b2.y1 - b1.y2) else max 0 (b1.y1 - b2.y2)
  decide (yDist < 100)

/-! ## Connected components (networkx nx.connected_components)

The source builds an undirected graph over list indices (edges added for
index pairs i < j passing a closeness test) and takes its connected
components.  The embedding computes the same partition by fuelled
breadth-first search; the fuel arguments are large enough that the fuel never
runs out (proved for the counting lemmas below). -/

/-- One BFS: grow a component from the frontier, removing reached indices
from the pool.  Returns the component found beyond the frontier, and the
untouched pool. -/
def reachAux (adj : Nat → Nat → Bool) : Nat → List Nat → List Nat → List Nat × List Nat
  | 0, _, pool => ([], pool)
  | fuel + 1, frontier, pool =>
    let newly := pool.filter (fun j => frontier.any (fun i => adj i j))
    let rest := pool.filter (fun j => !frontier.any (fun i => adj i j))
    if newly.isEmpty then ([], pool)
    else
      let r := reachAux adj fuel newly rest
      (newly ++ r.1, r.2)

/-- Components of the pool, peeling one component per head index. -/
def componentsAux (adj : Nat → Nat → Bool) : Nat → List Nat → List (List Nat)
  | 0, _ => []
  | _ + 1, [] => []
  | fuel + 1, i :: pool =>
    let r := reachAux adj (pool.length + 1) [i] pool
    (i :: r.1) :: componentsAux adj fuel r.2

/-- Connected components of the indices 0..n-1 under the symmetric closure of
adj, in discovery order. -/
def connectedComponents (adj : Nat → Nat → Bool) (n : Nat) : List (List Nat) :=
  componentsAux adj n (List.range n)

/-- Everything reachAux hands out comes from the pool: the component found
plus the remaining pool is a permutation of the input pool. -/
theorem reachAux_perm (adj : Nat → Nat → Bool) (fuel : Nat) :
    ∀ frontier pool, ((reachAux adj fuel frontier pool).1 ++ (reachAux adj fuel frontier pool).2).Perm pool := by
  induction fuel with
  | zero => intro frontier pool; simp [reachAux]
  | succ fuel ih =>
    intro frontier pool
    simp only [reachAux]
    split
    · simp
    · have base := List.filter_append_perm (fun j => frontier.any (fun i => adj i j)) pool
      have step :=
        List.Perm.append_left (pool.filter (fun j => frontier.any (fun i => adj i j)))
          (ih (pool.filter (fun j => frontier.any (fun i => adj i j)))
              (pool.filter (fun j => !frontier.any (fun i => adj i j))))
      simp only [List.append_assoc]
      exact step.trans base

/-- The components of a pool short enough for the fuel are a partition of
it: their join is a permutation of the pool. -/
theorem componentsAux_join_perm (adj : Nat → Nat → Bool) (fuel : Nat) :
    ∀ pool, pool.length ≤ fuel → ((componentsAux adj fuel pool).flatten).Perm pool := by
  induction fuel with
  | zero =>
    intro pool h
    have hnil : pool = [] := List.length_eq_zero.mp (Nat.le_zero.mp h)
    subst hnil
    simp [componentsAux]
  | succ fuel ih =>
    intro pool h
    match pool with
    | [] => simp [componentsAux]
    | i :: rest =>
      simp only [componentsAux, List.flatten_cons, List.cons_append]
      have hperm := reachAux_perm adj (rest.length + 1) [i] rest
      have hlen : (reachAux adj (rest.length + 1) [i] rest).2.length ≤ fuel := by
        have := hperm.length_eq
        simp only [List.length_append] at this
        simp only [List.length_cons] at h
        omega
      refine List.Perm.cons i ?_
      have step :=
        List.Perm.append_left (reachAux adj (rest.length + 1) [i] rest).1 (ih _ hlen)
      exact step.trans hperm

/-- GraphRefiner mergeGraphsSpatially: cluster the input graphs by the
closeness test over index pairs i < j (networkx connected components of that
graph), then merge each cluster with mergeGraphList. -/
def mergeGraphsSpatially (graphs : List GraphObj) : List GraphObj :=
  let dflt : GraphObj := { nodes := [], edges := [], source := "unknown", bbox := ⟨0, 0, 0, 0⟩ }
  let adj : Nat → Nat → Bool := fun i j =>
    (decide (i < j) && areGraphsClose (graphs.getD i dflt) (graphs.getD j dflt)) ||
    (decide (j < i) && areGraphsClose (graphs.getD j dflt) (graphs.getD i dflt))
  (connectedComponents adj graphs.length).map
    (fun comp => mergeGraphList (comp.map (fun i => graphs.getD i dflt)))

/-- GraphRefiner refine: merge the input graphs (all into one in page_level
mode, by spatial clusters otherwise), refine each merged graph, and drop
graphs with no surviving nodes. -/
def refine (graphs : List GraphObj) (mergeMode : String) : List RGraphObj :=
  if graphs = [] then []
  else
    let mergedGraphs :=
      if mergeMode = "page_level" then [mergeGraphList graphs]
      else mergeGraphsSpatially graphs
    (mergedGraphs.map refineSingleGraph).filter (fun g => g.nodes ≠ [])

/-! ## RegionConsolidator (region_consolidator.py) -/

/-- Region/element record flowing through consolidation and into the diagram
processor: "type", "bbox", "text" (empty for structural regions, which never
read it), and the optional "id" read by container.get("id", ...) (never set
by the upstream stages). -/
structure Elem where
  etype : String
  bbox : BBox
  text : String
  elemId : Option String
deriving DecidableEq, Repr

/-- RegionConsolidator regionsIntersectOrClose: expand the first bbox by the
threshold and test strict overlap on both axes. -/
def regionsIntersectOrClose (b1 b2 : BBox) (threshold : Int) : Bool :=
  let e1 : BBox := ⟨b1.x1 - threshold, b1.y1 - threshold, b1.x2 + threshold, b1.y2 + threshold⟩
  let xOverlap := max 0 (min e1.x2 b2.x2 - max e1.x1 b2.x1)
  let yOverlap := max 0 (min e1.y2 b2.y2 - max e1.y1 b2.y1)
  decide (xOverlap > 0 ∧ yOverlap > 0)

/-- DiagramGroup: {"type": "DIAGRAM", "bbox", "elements"}. -/
structure DiagramGroup where
  bbox : BBox
  elements : List Elem
deriving DecidableEq, Repr

/-- TextParagraph {"type": "TEXT_PARAGRAPH", "bbox", "text"}.  The lines
field additionally records the merged member regions (in reading order);
the source keeps only their concatenated text, the embedding keeps the list
so that conservation of regions is statable. -/
structure TextParagraph where
  bbox : BBox
  text : String
  lines : List Elem
deriving DecidableEq, Repr

/-- Minimum over the mapped values of a nonempty list (Python min over a
comprehension; the [] case is junk, the source would raise). -/
def listMinBy (f : α → Int) : List α → Int
  | [] => 0
  | [a] => f a
  | a :: rest => min (f a) (listMinBy f rest)

/-- Maximum over the mapped values of a nonempty list. -/
def listMaxBy (f : α → Int) : List α → Int
  | [] => 0
  | [a] => f a
  | a :: rest => max (f a) (listMaxBy f rest)

/-- RegionConsolidator mergeDiagramGroup: union bbox over the member
regions. -/
def mergeDiagramGroup (regions : List Elem) : DiagramGroup :=
  { bbox := ⟨listMinBy (fun r => r.bbox.x1) regions, listMinBy (fun r => r.bbox.y1) regions,
             listMaxBy (fun r => r.bbox.x2) regions, listMaxBy (fun r => r.bbox.y2) regions⟩,
    elements := regions }

/-- Junk element for out-of-range index lookups (never reached: component
indices come from List.range of the list length). -/
def dfltElem : Elem := { etype := "", bbox := ⟨0, 0, 0, 0⟩, text := "", elemId := none }

/-- RegionConsolidator consolidateDiagrams: connected components of the
region indices under the pairwise closeness test at threshold 30 (the source
adds an undirected edge for each pair i < j that passes; the adjacency below
is its symmetric closure), one merged group per component. -/
def consolidateDiagrams (regions : List Elem) : List DiagramGroup :=
  if regions = [] then []
  else
    let adj : Nat → Nat → Bool := fun i j =>
      (decide (i < j) &&
        regionsIntersectOrClose (regions.getD i dfltElem).bbox (regions.getD j dfltElem).bbox 30) ||
      (decide (j < i) &&
        regionsIntersectOrClose (regions.getD j dfltElem).bbox (regions.getD i dfltElem).bbox 30)
    (connectedComponents adj regions.length).map
      (fun comp => mergeDiagramGroup (comp.map (fun i => regions.getD i dfltElem)))

/-- Text-attachment step: try a text region against the groups in order; the
first group whose bbox the (10px-expanded) text bbox overlaps receives the
text in its elements and has its bbox expanded.  Returns the updated groups
and whether the text was assigned. -/
def attachText (t : Elem) : List DiagramGroup → List DiagramGroup × Bool
  | [] => ([], false)
  | g :: gs =>
    if regionsIntersectOrClose t.bbox g.bbox 10 then
      ({ bbox := bboxUnion g.bbox t.bbox, elements := g.elements ++ [t] } :: gs, true)
    else
      let r := attachText t gs
      (g :: r.1, r.2)

/-- Loop of step 2 of consolidate, threading the group list and the
remaining-text accumulator over the text regions. -/
def assignTextsAux : List DiagramGroup × List Elem → List Elem →
    List DiagramGroup × List Elem
  | acc, [] => acc
  | acc, t :: ts =>
    let r := attachText t acc.1
    assignTextsAux (if r.2 then (r.1, acc.2) else (r.1, acc.2 ++ [t])) ts

/-- Step 2 of consolidate: try to attach each text region to the first
close diagram group, collecting the unassigned ones in order. -/
def assignTexts (groups : List DiagramGroup) (texts : List Elem) :
    List DiagramGroup × List Elem :=
  assignTextsAux (groups, []) texts

/-- Paragraph-extension test of consolidateText: vertical gap from the
previous line's bottom below the y threshold (20) and horizontal overlap or
left edges within the x threshold (50). -/
def paraClose (prev curr : Elem) : Bool :=
  let verticalGap := curr.bbox.y1 - prev.bbox.y2
  let xOverlap := max 0 (min prev.bbox.x2 curr.bbox.x2 - max prev.bbox.x1 curr.bbox.x1)
  let isCloseY := decide (verticalGap < 20)
  let isAlignedX := decide (xOverlap > 0) || decide (((curr.bbox.x1 - prev.bbox.x1).natAbs : Int) < 50)
  isCloseY && isAlignedX

/-- Greedy grouping of the y-sorted text lines into paragraphs; cur holds the
running paragraph in reverse (head = previous line). -/
def paraGroupsAux : List Elem → List Elem → List (List Elem)
  | [], cur => [cur.reverse]
  | c :: rest, cur =>
    match cur with
    | [] => paraGroupsAux rest [c]
    | p :: _ => if paraClose p c then paraGroupsAux rest (c :: cur)
                else cur.reverse :: paraGroupsAux rest [c]

/-- Sort key for text regions: bbox y1 (Python sorted with key r.bbox[1]). -/
def elemYle (a b : Elem) : Bool := decide (a.bbox.y1 ≤ b.bbox.y1)

/-- Sort key inside a merged paragraph: (y1, x1) lexicographic. -/
def elemYXle (a b : Elem) : Bool :=
  decide (a.bbox.y1 < b.bbox.y1 ∨ (a.bbox.y1 = b.bbox.y1 ∧ a.bbox.x1 ≤ b.bbox.x1))

/-- Paragraph groups of consolidateText: sort by top y, then extend the
running paragraph greedily while paraClose holds. -/
def paraGroups (textRegions : List Elem) : List (List Elem) :=
  match stableSortBy elemYle textRegions with
  | [] => []
  | r :: rest => paraGroupsAux rest [r]

/-- RegionConsolidator mergeTextGroup: union bbox, then re-sort by (y, x)
for reading order and join the texts with single spaces. -/
def mergeTextGroup (regions : List Elem) : TextParagraph :=
  let sortedRegions := stableSortBy elemYXle regions
  { bbox := ⟨listMinBy (fun r => r.bbox.x1) regions, listMinBy (fun r => r.bbox.y1) regions,
             listMaxBy (fun r => r.bbox.x2) regions, listMaxBy (fun r => r.bbox.y2) regions⟩,
    text := strJoin " " (sortedRegions.map (fun r => r.text)),
    lines := sortedRegions }

/-- RegionConsolidator consolidateText: group into paragraphs and merge each
group. -/
def consolidateText (textRegions : List Elem) : List TextParagraph :=
  (paraGroups textRegions).map mergeTextGroup

/-- RegionConsolidator consolidate: filter the "text"-typed detector regions
out (OCR text is used instead), cluster the structural rest into diagram
groups, attach OCR text regions to the first close group, and merge the
unattached text into paragraphs.  The source returns both kinds concatenated
in one "regions" list; the embedding returns them as a pair. -/
def consolidate (diagramRegions textRegions : List Elem) :
    List DiagramGroup × List TextParagraph :=
  let structuralElements := diagramRegions.filter (fun r => !substrIn "text" r.etype)
  let diagramGroups := consolidateDiagrams structuralElements
  let r := assignTexts diagramGroups textRegions
  (r.1, consolidateText r.2)

/-! ## DiagramProcessor (diagram_processor.py) -/

/-- Strict interior test of DiagramProcessor: the (doubled) center of a bbox
lies strictly inside another bbox; all four comparisons are doubled. -/
def centerStrictlyInside (c : Int × Int) (b : BBox) : Bool :=
  decide (2 * b.x1 < c.1 ∧ c.1 < 2 * b.x2 ∧ 2 * b.y1 < c.2 ∧ c.2 < 2 * b.y2)

/-- Container-node construction of identifyNodes: the label concatenates (in
(y, x) order) the text of every text element whose center is strictly inside
the container's bbox; the id is the container's own id if present, else the
k-th fresh uuid draw. -/
def containerNode (fresh : Nat → String) (k : Nat) (textElements : List Elem)
    (container : Elem) : GNode :=
  let containedText := textElements.filter
    (fun t => centerStrictlyInside (center2 t.bbox) container.bbox)
  let sortedText := stableSortBy elemYXle containedText
  { nid := container.elemId.getD (fresh k),
    label := strJoin " " (sortedText.map (fun t => t.text)),
    ntype := "container",
    bbox := container.bbox }

/-- Standalone-text loop of identifyNodes: each text element whose center is
strictly inside no node built so far (containers and previously appended
text blobs alike — the source iterates over the growing node list) becomes a
text_blob node with a fresh-id-based id; skipped elements consume no draw. -/
def addStandaloneText (fresh : Nat → String) : Nat → List GNode → List Elem → List GNode
  | _, nodes, [] => nodes
  | k, nodes, t :: ts =>
    let c := center2 t.bbox
    if nodes.any (fun n => centerStrictlyInside c n.bbox) then
      addStandaloneText fresh k nodes ts
    else
      addStandaloneText fresh (k + 1)
        (nodes ++ [{ nid := "text_" ++ fresh k, label := t.text,
                     ntype := "text_blob", bbox := t.bbox }]) ts

/-- DiagramProcessor identifyNodes: container nodes first (one fresh draw
each, as uuid4 is evaluated eagerly as the .get default), then standalone
text nodes. -/
def identifyNodes (fresh : Nat → String) (elements : List Elem) : List GNode :=
  let containers := elements.filter (fun e => substrIn "container" e.etype)
  let textElements := elements.filter
    (fun e => substrIn "text" e.etype || e.etype = "text_content")
  let containerNodes := containers.enum.map (fun p => containerNode fresh p.1 textElements p.2)
  addStandaloneText fresh containers.length containerNodes textElements

/-- Ordering on the (squared-distance, node) pairs of identifyEdges; Python
sorts the list by the distance component, stably. -/
def distLe (a b : Int × GNode) : Bool := decide (a.1 ≤ b.1)

/-- Per-connector edge construction of identifyEdges: pair the connector
with the two nodes whose centers are closest to its center, then orient by
reading order — node_a (the closest) is the source if its center is strictly
above node_b's, or otherwise if it is strictly to the left; else node_b is
the source.  Squared distances on doubled centers replace math.hypot, which
sorts identically. -/
def edgeForConnector (connector : Elem) (nodes : List GNode) : Option GEdge :=
  let cCenter := center2 connector.bbox
  let distances := nodes.map (fun n => (dist2 cCenter (center2 n.bbox), n))
  let sortedDistances := stableSortBy distLe distances
  match sortedDistances with
  | a :: b :: _ =>
    let nodeA := a.2
    let nodeB := b.2
    let aCenter := center2 nodeA.bbox
    let bCenter := center2 nodeB.bbox
    let cid := connector.elemId.getD "unknown"
    if aCenter.2 < bCenter.2 then some ⟨nodeA.nid, nodeB.nid, "connected_to", cid⟩
    else if aCenter.1 < bCenter.1 then some ⟨nodeA.nid, nodeB.nid, "connected_to", cid⟩
    else some ⟨nodeB.nid, nodeA.nid, "connected_to", cid⟩
  | _ => none

/-- DiagramProcessor identifyEdges: no edges for graphs with fewer than two
nodes; otherwise one edge per connector element. -/
def identifyEdges (elements : List Elem) (nodes : List GNode) : List GEdge :=
  let connectors := elements.filter (fun e => substrIn "connector" e.etype)
  if nodes.length < 2 then []
  else connectors.filterMap (fun c => edgeForConnector c nodes)

/-! ## RegionDetector (diagram_detector.py) -/

/-- Contour data as read by the classification loop of detectRegions:
bounding rect x, y, w, h (cv2 gives integers), the contour area, and whether
the contour has a child in the hierarchy.  cv2.contourArea can be a multiple
of one half for slanted contours, so the field carries twice the area
(area2), an integer for integer-vertex contours; every threshold test below
is doubled accordingly. -/
structure Contour where
  x : Int
  y : Int
  w : Int
  h : Int
  area2 : Int
  hasChild : Bool
deriving DecidableEq, Repr

/-- Region emitted by detectRegions: type, bbox, area (doubled, see
Contour), shape.  The cnt field of the source (the raw contour) is not
modelled. -/
structure DetRegion where
  rtype : String
  bbox : BBox
  area2 : Int
  shape : String
deriving DecidableEq, Repr

/-- Per-contour classification of detectRegions.  The shape classifier
(classify_shape, pure cv2 geometry on the raw contour) is abstracted as the
shapeOf parameter; the claims below hold for every shapeOf.  Ratio tests are
multiplied out (h/w > 10 becomes h > 10*w, etc.), exact for the positive
widths and heights cv2 bounding rects produce (the source would divide by
zero otherwise); area thresholds are doubled to match area2; and
bbox_area > 0.5 * image_area becomes 2*bbox_area > image_area, exact.
Returns none where the source skips the contour (continue). -/
def classifyContour (shapeOf : Contour → String) (imgW imgH : Int) (c : Contour) :
    Option DetRegion :=
  let bbox : BBox := ⟨c.x, c.y, c.x + c.w, c.y + c.h⟩
  -- 1. small noise: area < 100
  if c.area2 < 200 then none
  -- 2. container/box detection: (has child and area > 1000) or area > 3000
  else if (c.hasChild && decide (c.area2 > 2000)) || decide (c.area2 > 6000) then
    -- reject page-level wrappers: bbox_area > 0.5 * image_area
    if 2 * (c.w * c.h) > imgH * imgW then none
    -- vertical line: h/w > 10
    else if c.h > 10 * c.w then none
    -- wide box: w/h > 8
    else if c.w > 8 * c.h then some ⟨"text_line", bbox, c.area2, "unknown"⟩
    else some ⟨"diagram_container", bbox, c.area2, shapeOf c⟩
  -- 3. text detection: area < 3000
  else if c.area2 < 6000 then
    -- aspect ratio w/h > 3
    if c.w > 3 * c.h then
      let shape := shapeOf c
      if substrIn "line" shape || substrIn "arrow" shape then
        some ⟨"connector", bbox, c.area2, shape⟩
      else some ⟨"text_line", bbox, c.area2, shape⟩
    else some ⟨"text", bbox, c.area2, "unknown"⟩
  -- neither branch fired (area exactly 3000 without child): appended as unknown
  else some ⟨"unknown", bbox, c.area2, "unknown"⟩

/-- RegionDetector detectRegions: classify each contour in order, skipping
the ones the heuristics reject. -/
def detectRegions (shapeOf : Contour → String) (imgW imgH : Int)
    (contours : List Contour) : List DetRegion :=
  contours.filterMap (classifyContour shapeOf imgW imgH)

/-! ## SchemaGenerator (schema_generator.py) -/

/-- Text knowledge chunk: {"doc_id", "chunk_id", "type": "text", "content",
"metadata": {"source_image", "topic", "page"}}. -/
structure TextChunk where
  docId : String
  chunkId : String
  content : String
  sourceImage : String
  topic : String
  page : Nat
deriving DecidableEq, Repr

/-- Junk node for the chunk-head lookup (never reached: flushChunk is only
called on nonempty chunks). -/
def dfltGNode : GNode := { nid := "", label := "", ntype := "", bbox := ⟨0, 0, 0, 0⟩ }

/-- Whitespace normalization re.sub(r'\s+', ' ', t).strip(): collapse
whitespace runs to single spaces and strip the ends, which equals splitting
on whitespace and rejoining with single spaces. -/
def collapseWs (s : String) : String := strJoin " " (pySplit s)

/-- SchemaGenerator flushChunk: the chunk id is derived from the id of the
chunk's first node. -/
def flushChunk (chunk : List GNode) (sourceId : String) : TextChunk :=
  { docId := "page_" ++ sourceId,
    chunkId := "chunk_" ++ (chunk.headD dfltGNode).nid,
    content := collapseWs (strJoin " " (chunk.map (fun n => n.label))),
    sourceImage := sourceId,
    topic := "extracted_knowledge",
    page := 1 }

/-- SchemaGenerator isSameParagraph: the vertical gap dy from the previous
node's bottom satisfies -0.5*height <= dy < 1.8*height; stated scaled by
10. -/
def isSameParagraph (n1 n2 : GNode) : Bool :=
  let dy := n2.bbox.y1 - n1.bbox.y2
  let height := n1.bbox.y2 - n1.bbox.y1
  decide (-(5 * height) ≤ 10 * dy ∧ 10 * dy < 18 * height)

/-- SchemaGenerator isDefinitionText: any of the definition keywords occurs
in the lowercased text. -/
def isDefinitionText (text : String) : Bool :=
  ["definition", "field of study", "tom mitchell"].any
    (fun x => substrIn x (strLower text))

/-- Chunk-building loop of generateTextKnowledge over the y-sorted nodes;
cur holds the running chunk in reverse (head = previous node).  A chunk only
opens on a long label (more than 5 words) or a definition keyword; once open
it extends with any node that isSameParagraph accepts and flushes
otherwise. -/
def genTextAux (sourceId : String) : List GNode → List GNode → List TextChunk
  | [], cur => match cur with
    | [] => []
    | _ => [flushChunk cur.reverse sourceId]
  | n :: rest, cur =>
    let isSentence := (pySplit n.label).length > 5
    let isDef := isDefinitionText n.label
    match cur with
    | [] =>
      if isSentence || isDef then genTextAux sourceId rest [n]
      else genTextAux sourceId rest []
    | p :: _ =>
      if isSameParagraph p n then genTextAux sourceId rest (n :: cur)
      else flushChunk cur.reverse sourceId :: genTextAux sourceId rest [n]

/-- Sort key of generateTextKnowledge: bbox y1. -/
def nodeYle (a b : GNode) : Bool := decide (a.bbox.y1 ≤ b.bbox.y1)

/-- SchemaGenerator generateTextKnowledge: sort by y and run the greedy
chunk builder. -/
def generateTextKnowledge (nodes : List GNode) (sourceId : String) : List TextChunk :=
  genTextAux sourceId (stableSortBy nodeYle nodes) []

/-- Semantic type rules of SchemaGenerator (self.node_type_rules); each
regex is an alternation of literal substrings, embedded as such.  First
match wins. -/
def nodeTypeRules : List (List String × String) :=
  [(["machine learning", "ml"], "concept"),
   (["learning", "program", "algorithm"], "process"),
   (["data", "experience", "task"], "data"),
   (["model", "equation", "rules", "clusters"], "model"),
   (["definition", "tom mitchell"], "definition"),
   (["equation", "diagram", "rules"], "example")]

/-- SchemaGenerator inferType: first rule whose pattern occurs in the
lowercased label; default concept. -/
def inferType (label : String) : String :=
  let l := strLower label
  match nodeTypeRules.find? (fun rule => rule.1.any (fun p => substrIn p l)) with
  | some rule => rule.2
  | none => "concept"

/-- Non-slug characters of re.sub(r'[^a-z0-9]+', '_', text) after
lowercasing. -/
def slugMapChar (c : Char) : Char := if c.isLower || c.isDigit then c else '_'

/-- Collapse runs of underscores to one, matching the + in the slug regex.
The fuel argument only makes the recursion structural; the list length is
enough fuel since each step consumes one character. -/
def collapseUnderscores : Nat → List Char → List Char
  | 0, _ => []
  | _ + 1, [] => []
  | fuel + 1, '_' :: '_' :: rest => collapseUnderscores fuel ('_' :: rest)
  | fuel + 1, c :: rest => c :: collapseUnderscores fuel rest

/-- SchemaGenerator makeSlug: lowercase, replace non-alphanumeric runs with
a single underscore, strip underscores from the ends, truncate to 50. -/
def makeSlug (text : String) : String :=
  let mapped := (strLower text).toList.map slugMapChar
  let collapsed := collapseUnderscores mapped.length mapped
  let stripped := ((collapsed.dropWhile (fun c => c = '_')).reverse.dropWhile
    (fun c => c = '_')).reverse
  String.mk (stripped.take 50)

/-- Canonical graph node: {"node_id", "label", "type", "aliases",
"source"}. -/
structure CanonicalNode where
  nodeId : String
  label : String
  ntype : String
  aliases : List String
  source : String
deriving DecidableEq, Repr

/-- Canonical graph edge: {"from", "to", "relation", "confidence",
"source"}; confidence10 carries ten times the source's float confidence
(9 for 0.9, 10 for 1.0). -/
structure CanonicalEdge where
  efrom : String
  eto : String
  relation : String
  confidence10 : Int
  source : String
deriving DecidableEq, Repr

/-- Canonical knowledge graph: {"graph_id", "nodes", "edges", "metadata":
{"source_image", "page"}}. -/
structure CanonicalKnowledgeGraph where
  graphId : String
  nodes : List CanonicalNode
  edges : List CanonicalEdge
  sourceImage : String
  page : Nat
deriving DecidableEq, Repr

/-- Stop words of the node-pruning logic. -/
def stopWords : List String :=
  ["following", "base", "and", "or", "of", "the", "without", "that", "gives",
   "programmed"]

/-- Slugs of the known model subtypes. -/
def modelSubtypes : List String :=
  ["mathematical_equation", "relational_diagrams_like_graphs_trees",
   "logical_if_else_rules", "groupings_called_clusters"]

/-- Node-processing loop of generateGraphKnowledge: skip empty labels,
rewrite the "Data Learning program" OCR artifact, prune labels over 5 words
or hitting the stop-word list, then type, slug and record the node along
with the old-id to slug map and slug to type map. -/
def processNodes (sourceId : String) (nodes : List GNode) :
    List CanonicalNode × (String → Option String) × (String → Option String) :=
  nodes.foldl
    (fun acc n =>
      let label0 := pyStrip n.label
      if label0 = "" then acc
      else
        let label := if substrIn "Data Learning program" label0 then "Learning Program"
                     else label0
        let words := pySplit label
        if words.length > 5 then acc
        else
          let firstWord := strLower (words.headD "")
          if stopWords.contains (strLower label) || stopWords.contains firstWord then acc
          else
            let ntype := inferType label
            let cleanId := makeSlug label
            (acc.1 ++ [{ nodeId := cleanId, label := label, ntype := ntype,
                         aliases := [strLower label], source := sourceId }],
             dupd acc.2.1 n.nid cleanId,
             dupd acc.2.2 cleanId ntype))
    ([], fun _ => none, fun _ => none)

/-- Core-node injection of generateGraphKnowledge: if any model subtype slug
survived but no "model" node did, append the Model node. -/
def injectModelNode (sourceId : String) (canonicalNodes : List CanonicalNode) :
    List CanonicalNode :=
  let presentIds := canonicalNodes.map (fun n => n.nodeId)
  if modelSubtypes.any (fun m => presentIds.contains m) && !presentIds.contains "model" then
    canonicalNodes ++ [{ nodeId := "model", label := "Model", ntype := "model",
                         aliases := ["model"], source := sourceId }]
  else canonicalNodes

/-- Relation normalization table (self.relation_map). -/
def relationMap : List (String × String) :=
  [("flows_to", "input_to"), ("leads_to", "leads_to"), ("produces", "produces"),
   ("input_to", "input_to"), ("defined_as", "defined_as"),
   ("flows_from", "is_type_of"), ("connected_to", "leads_to")]

/-- Python dict .get with a default on an association table. -/
def lookupD (m : List (String × String)) (k d : String) : String :=
  match m.find? (fun p => p.1 = k) with
  | some p => p.2
  | none => d

/-- Relation normalization and contextual overrides of the edge-processing
loop, in the source's assignment order: table lookup with default leads_to,
then the data/program, program/model and definition overrides, then the
flows_from/connected_to block keyed on the endpoint types. -/
def admittedRelation (rawRel src tgt srcType tgtType : String) : String :=
  let rel0 := lookupD relationMap rawRel "leads_to"
  let rel1 := if substrIn "data" src && substrIn "program" tgt then "input_to" else rel0
  let rel2 := if substrIn "program" src && substrIn "model" tgt then "produces" else rel1
  let rel3 := if substrIn "definition" tgt then "defined_as" else rel2
  let rel4 := if substrIn "definition" src then "defined_as" else rel3
  if rawRel = "flows_from" ∨ rawRel = "connected_to" then
    if (tgtType = "model" ∨ tgtType = "example") ∧ srcType = "model" then
      "is_type_of"
    else if tgtType = "example" then "example_of"
    else rel4
  else rel4

/-- Edge-processing loop of generateGraphKnowledge, threading the set of
already-admitted (from, to) pairs: rewrite endpoints through the node map
(dropping edges whose endpoints were pruned, empty-slugged — Python
truthiness — or equal), require both endpoints present, suppress sibling
edges between model/example-typed nodes not touching the literal model node,
normalize and contextually override the relation, and drop duplicate
pairs. -/
def processEdgesAux (nodeMap typeMap : String → Option String)
    (presentIds : List String) (sourceId : String) :
    List (String × String) → List REdge → List CanonicalEdge
  | _, [] => []
  | existing, e :: rest =>
    match nodeMap e.efrom, nodeMap e.eto with
    | some src, some tgt =>
      if src ≠ "" ∧ tgt ≠ "" ∧ src ≠ tgt then
        if presentIds.contains src ∧ presentIds.contains tgt then
          let srcType := (typeMap src).getD "concept"
          let tgtType := (typeMap tgt).getD "concept"
          if (srcType = "model" ∨ srcType = "example") ∧
             (tgtType = "model" ∨ tgtType = "example") ∧
             src ≠ "model" ∧ tgt ≠ "model" then
            processEdgesAux nodeMap typeMap presentIds sourceId existing rest
          else
            if existing.contains (src, tgt) then
              processEdgesAux nodeMap typeMap presentIds sourceId existing rest
            else
              { efrom := src, eto := tgt,
                relation := admittedRelation e.relation src tgt srcType tgtType,
                confidence10 := 9, source := sourceId } ::
                processEdgesAux nodeMap typeMap presentIds sourceId ((src, tgt) :: existing) rest
        else processEdgesAux nodeMap typeMap presentIds sourceId existing rest
      else processEdgesAux nodeMap typeMap presentIds sourceId existing rest
    | _, _ => processEdgesAux nodeMap typeMap presentIds sourceId existing rest

/-- First block of injectCoreEdges: Data -> learning program, recorded in
the existing set. -/
def injectDataEdge (nodeIds : List String) (lpId : String) (sourceId : String)
    (s : List CanonicalEdge × List (String × String)) :
    List CanonicalEdge × List (String × String) :=
  if nodeIds.contains "data" && nodeIds.contains lpId &&
     !s.2.contains ("data", lpId) then
    (s.1 ++ [{ efrom := "data", eto := lpId, relation := "input_to",
               confidence10 := 10, source := sourceId }],
     ("data", lpId) :: s.2)
  else s

/-- Second block of injectCoreEdges: learning program -> Model, recorded in
the existing set. -/
def injectLpModelEdge (nodeIds : List String) (lpId : String) (sourceId : String)
    (s : List CanonicalEdge × List (String × String)) :
    List CanonicalEdge × List (String × String) :=
  if nodeIds.contains lpId && nodeIds.contains "model" &&
     !s.2.contains (lpId, "model") then
    (s.1 ++ [{ efrom := lpId, eto := "model", relation := "produces",
               confidence10 := 10, source := sourceId }],
     (lpId, "model") :: s.2)
  else s

/-- Third block of injectCoreEdges: Model -> each present subtype; the
source does not record these pairs in the existing set. -/
def injectSubtypeEdges (nodeIds : List String) (sourceId : String)
    (existing : List (String × String)) (es : List CanonicalEdge) : List CanonicalEdge :=
  if nodeIds.contains "model" then
    modelSubtypes.foldl
      (fun es2 st =>
        if nodeIds.contains st && !existing.contains ("model", st) then
          es2 ++ [{ efrom := "model", eto := st, relation := "is_type_of",
                    confidence10 := 10, source := sourceId }]
        else es2)
      es
  else es

/-- Fourth block of injectCoreEdges: machine_learning -> definition_of_ml
(checked against the existing set as it stood after the second block, as in
the source). -/
def injectMlDefEdge (nodeIds : List String) (sourceId : String)
    (existing : List (String × String)) (es : List CanonicalEdge) : List CanonicalEdge :=
  if nodeIds.contains "machine_learning" && nodeIds.contains "definition_of_ml" &&
     !existing.contains ("machine_learning", "definition_of_ml") then
    es ++ [{ efrom := "machine_learning", eto := "definition_of_ml",
             relation := "defined_as", confidence10 := 10, source := sourceId }]
  else es

/-- SchemaGenerator injectCoreEdges: append the structural backbone edges
whose endpoint nodes are present and which are not already there, in the
source's statement order. -/
def injectCoreEdges (nodes : List CanonicalNode) (edges : List CanonicalEdge)
    (existing : List (String × String)) (sourceId : String) : List CanonicalEdge :=
  let nodeIds := nodes.map (fun n => n.nodeId)
  let lpId := if nodeIds.contains "learning_program" then "learning_program"
              else "data_learning_program"
  let s1 := injectDataEdge nodeIds lpId sourceId (edges, existing)
  let s2 := injectLpModelEdge nodeIds lpId sourceId s1
  let s3 := injectSubtypeEdges nodeIds sourceId s2.2 s2.1
  injectMlDefEdge nodeIds sourceId s2.2 s3

/-- SchemaGenerator generateGraphKnowledge: process nodes, inject the model
node if needed, process edges against the post-injection id set, then inject
the core structural edges. -/
def generateGraphKnowledge (nodes : List GNode) (edges : List REdge)
    (sourceId : String) : CanonicalKnowledgeGraph :=
  let pn := processNodes sourceId nodes
  let canonicalNodes := injectModelNode sourceId pn.1
  let presentIds := canonicalNodes.map (fun n => n.nodeId)
  let canonicalEdges := processEdgesAux pn.2.1 pn.2.2 presentIds sourceId [] edges
  let existing := canonicalEdges.map (fun e => (e.efrom, e.eto))
  let finalEdges := injectCoreEdges canonicalNodes canonicalEdges existing sourceId
  { graphId := "kg_" ++ sourceId, nodes := canonicalNodes, edges := finalEdges,
    sourceImage := sourceId, page := 1 }

/-- SchemaGenerator generate on a refined graph: the text knowledge chunks
and the canonical knowledge graph. -/
def generate (g : RGraphObj) (sourceId : String) :
    List TextChunk × CanonicalKnowledgeGraph :=
  (generateTextKnowledge g.nodes sourceId, generateGraphKnowledge g.nodes g.edges sourceId)

/-! ## Claims -/

/-- C6: on the two text_blob nodes labelled Machine (bbox [0,0,60,20]) and
Learning (bbox [62,0,130,20]), stage-2 adjacent-text merging produces a
single node labelled "Machine Learning" with the union bbox [0,0,130,20],
and maps the merged-away node's id to the survivor's id. -/
theorem c6_adjacent_text_merge_scenario :
    (mergeAdjacentTextNodes
        [{ nid := "n1", label := "Machine", ntype := "text_blob", bbox := ⟨0, 0, 60, 20⟩ },
         { nid := "n2", label := "Learning", ntype := "text_blob", bbox := ⟨62, 0, 130, 20⟩ }]).1 =
      [{ nid := "n1", label := "Machine Learning", ntype := "text_blob",
         bbox := ⟨0, 0, 130, 20⟩ }] ∧
    (mergeAdjacentTextNodes
        [{ nid := "n1", label := "Machine", ntype := "text_blob", bbox := ⟨0, 0, 60, 20⟩ },
         { nid := "n2", label := "Learning", ntype := "text_blob", bbox := ⟨62, 0, 130, 20⟩ }]).2
        "n2" = some "n1" := by
  decide

/-- C7: whenever none of the four keyword-pair rules fires, relation
inference returns the spatial relation of the endpoint center deltas: with
|dx| > |dy| it is flows_to for dx > 0 and flows_from for dx < 0, and
otherwise it is leads_to regardless of the sign of dy (the redundant dy > 0
test of the source collapses; a leads_from is never produced).  Deltas are
on doubled centers, which preserves the comparison and the sign. -/
theorem c7_spatial_fallback (src tgt : GNode)
    (h1 : (substrIn "data" (strLower src.label) &&
           substrIn "program" (strLower tgt.label)) = false)
    (h2 : (substrIn "learning" (strLower src.label) &&
           substrIn "model" (strLower tgt.label)) = false)
    (h3 : (substrIn "experience" (strLower src.label) &&
           substrIn "model" (strLower tgt.label)) = false)
    (h4 : (substrIn "model" (strLower src.label) &&
           substrIn "machine learning" (strLower tgt.label)) = false) :
    inferRelation src tgt =
      (if ((center2 tgt.bbox).1 - (center2 src.bbox).1).natAbs >
          ((center2 tgt.bbox).2 - (center2 src.bbox).2).natAbs then
        if (center2 tgt.bbox).1 - (center2 src.bbox).1 > 0 then "flows_to" else "flows_from"
      else "leads_to") := by
  simp only [inferRelation, h1, h2, h3, h4, Bool.false_eq_true, if_false,
    spatialRelation, ite_self]

/-- C7 witness: a concrete endpoint pair with no keyword hit, lying mostly
horizontally, yields flows_to. -/
theorem c7_witness :
    inferRelation { nid := "u", label := "x", ntype := "text_blob", bbox := ⟨0, 0, 10, 10⟩ }
        { nid := "v", label := "y", ntype := "text_blob", bbox := ⟨100, 0, 110, 10⟩ } =
      "flows_to" :=
  (c7_spatial_fallback
      { nid := "u", label := "x", ntype := "text_blob", bbox := ⟨0, 0, 10, 10⟩ }
      { nid := "v", label := "y", ntype := "text_blob", bbox := ⟨100, 0, 110, 10⟩ }
      (by decide) (by decide) (by decide) (by decide)).trans (by decide)

/-- Generalized invariant behind dedup idempotence: if no node's lowercased
label is already in the label dict, all labels are nonempty and pairwise
distinct, the node list passes through dedupAux unchanged. -/
theorem dedupAux_all_fresh (ns : List GNode) :
    ∀ labelMap idMap : String → Option String,
      (∀ n ∈ ns, labelMap (strLower n.label) = none) →
      ns.Pairwise (fun a b => strLower a.label ≠ strLower b.label) →
      (∀ n ∈ ns, strLower n.label ≠ "") →
      (dedupAux labelMap idMap ns).1 = ns := by
  induction ns with
  | nil => intro labelMap idMap _ _ _; simp [dedupAux]
  | cons n rest ih =>
    intro labelMap idMap hfresh hpair hne
    have hnhead : strLower n.label ≠ "" := hne n (List.mem_cons_self n rest)
    have hfhead : labelMap (strLower n.label) = none := hfresh n (List.mem_cons_self n rest)
    simp only [dedupAux, if_neg hnhead, hfhead]
    have hrest := ih (dupd labelMap (strLower n.label) n.nid) (dupd idMap n.nid n.nid)
      (fun m hm => by
        have hdiff : strLower n.label ≠ strLower m.label :=
          (List.pairwise_cons.mp hpair).1 m hm
        simp only [dupd]
        rw [if_neg (fun hc => hdiff hc.symm)]
        exact hfresh m (List.mem_cons_of_mem n hm))
      (List.pairwise_cons.mp hpair).2
      (fun m hm => hne m (List.mem_cons_of_mem n hm))
    simpa using hrest

/-- C8: deduplication is idempotent — on a node list whose lowercased labels
are already nonempty and pairwise distinct (the state deduplication leaves
behind), running deduplication returns the same list. -/
theorem c8_dedup_idempotent (ns : List GNode)
    (hdistinct : ns.Pairwise (fun a b => strLower a.label ≠ strLower b.label))
    (hnonempty : ∀ n ∈ ns, strLower n.label ≠ "") :
    (deduplicateNodes ns).1 = ns :=
  dedupAux_all_fresh ns (fun _ => none) (fun _ => none) (fun _ _ => rfl) hdistinct hnonempty

/-- C8 witness: a concrete two-node already-deduplicated list passes through
unchanged. -/
theorem c8_witness :
    (deduplicateNodes
        [{ nid := "a", label := "Data", ntype := "container", bbox := ⟨0, 0, 10, 10⟩ },
         { nid := "b", label := "Model", ntype := "container", bbox := ⟨0, 20, 10, 30⟩ }]).1 =
      [{ nid := "a", label := "Data", ntype := "container", bbox := ⟨0, 0, 10, 10⟩ },
       { nid := "b", label := "Model", ntype := "container", bbox := ⟨0, 20, 10, 30⟩ }] :=
  c8_dedup_idempotent
    [{ nid := "a", label := "Data", ntype := "container", bbox := ⟨0, 0, 10, 10⟩ },
     { nid := "b", label := "Model", ntype := "container", bbox := ⟨0, 20, 10, 30⟩ }]
    (by decide) (by decide)

/-- C9: a contour whose bounding box covers more than half of the image area
is never emitted as a diagram_container, whatever the shape classifier says:
the container branch rejects it outright and the other branches only emit
text, text_line, connector or unknown regions. -/
theorem c9_page_wrapper_rejected (shapeOf : Contour → String) (imgW imgH : Int)
    (c : Contour) (harea : 2 * (c.w * c.h) > imgH * imgW) (r : DetRegion)
    (hr : classifyContour shapeOf imgW imgH c = some r) :
    r.rtype ≠ "diagram_container" := by
  simp only [classifyContour] at hr
  split_ifs at hr
  all_goals first
    | exact absurd harea (by assumption)
    | (obtain rfl := Option.some.inj hr; simp)

/-- C9 witness: a sparse contour (area 200) whose bbox covers the whole
1000 by 1000 image is emitted as plain text, not as a diagram_container. -/
theorem c9_witness :
    (2 * ((1000 : Int) * 1000) > 1000 * 1000) ∧ "text" ≠ "diagram_container" :=
  ⟨by decide,
   c9_page_wrapper_rejected (fun _ => "unknown") 1000 1000
     { x := 0, y := 0, w := 1000, h := 1000, area2 := 400, hasChild := false }
     (by decide)
     { rtype := "text", bbox := ⟨0, 0, 1000, 1000⟩, area2 := 400, shape := "unknown" }
     (by decide)⟩

/-- C10: when at least one model-subtype slug survives node pruning but no
node slugged to model does, generateGraphKnowledge injects the literal Model
node into the output node list. -/
theorem c10_model_node_injected (nodes : List GNode) (edges : List REdge) (sourceId : String)
    (hsub : modelSubtypes.any
        (fun m => ((processNodes sourceId nodes).1.map (fun n => n.nodeId)).contains m) = true)
    (hnomodel : ((processNodes sourceId nodes).1.map
        (fun n => n.nodeId)).contains "model" = false) :
    ({ nodeId := "model", label := "Model", ntype := "model", aliases := ["model"],
       source := sourceId } : CanonicalNode) ∈
      (generateGraphKnowledge nodes edges sourceId).nodes := by
  simp only [generateGraphKnowledge, injectModelNode]
  rw [if_pos (by rw [Bool.and_eq_true, Bool.not_eq_true']; exact ⟨hsub, hnomodel⟩)]
  exact List.mem_append_right _ (List.mem_singleton.mpr rfl)

/-- C10 witness: a single surviving node labelled Mathematical Equation
slugs to the subtype mathematical_equation and triggers the Model-node
injection. -/
theorem c10_witness :
    ({ nodeId := "model", label := "Model", ntype := "model", aliases := ["model"],
       source := "img" } : CanonicalNode) ∈
      (generateGraphKnowledge
          [{ nid := "a", label := "Mathematical Equation", ntype := "container",
             bbox := ⟨0, 0, 1, 1⟩ }]
          [] "img").nodes :=
  c10_model_node_injected
    [{ nid := "a", label := "Mathematical Equation", ntype := "container",
       bbox := ⟨0, 0, 1, 1⟩ }]
    [] "img" (by decide) (by decide)

/-- C5 counterexample: a connector at doubled center (0,16) with node A at
doubled center (0,20) (closest) and node B at doubled center (10,0)
(second): B's center is strictly higher than A's, yet the edge emitted runs
from A — the source node is not the higher of the two matched nodes, because
the source's elif only considers the x order when the closest node is not
above the other. -/
theorem c5_counterexample :
    identifyEdges [{ etype := "connector", bbox := ⟨0, 8, 0, 8⟩, text := "", elemId := none }]
        [{ nid := "A", label := "", ntype := "text_blob", bbox := ⟨-5, 5, 5, 15⟩ },
         { nid := "B", label := "", ntype := "text_blob", bbox := ⟨4, -1, 6, 1⟩ }] =
      [{ efrom := "A", eto := "B", relation := "connected_to", connectorId := "unknown" }] ∧
    (center2 (⟨4, -1, 6, 1⟩ : BBox)).2 < (center2 (⟨-5, 5, 5, 15⟩ : BBox)).2 := by
  decide

/-- C5 amended: of the two matched nodes the closest one (n1, with the
closeness hypothesis) becomes the edge's source exactly when its center is
strictly above the second's, or — failing that — strictly to its left;
otherwise the second-closest node becomes the source.  The strictly-higher
node is the source only in the cases where that node is also the closest
one. -/
theorem c5_amended_direction (c : Elem) (n1 n2 : GNode)
    (hconn : substrIn "connector" c.etype = true)
    (hclose : dist2 (center2 c.bbox) (center2 n1.bbox) ≤
              dist2 (center2 c.bbox) (center2 n2.bbox)) :
    identifyEdges [c] [n1, n2] =
      [if (center2 n1.bbox).2 < (center2 n2.bbox).2 ∨
          ((center2 n2.bbox).2 ≤ (center2 n1.bbox).2 ∧
           (center2 n1.bbox).1 < (center2 n2.bbox).1) then
         { efrom := n1.nid, eto := n2.nid, relation := "connected_to",
           connectorId := c.elemId.getD "unknown" }
       else
         { efrom := n2.nid, eto := n1.nid, relation := "connected_to",
           connectorId := c.elemId.getD "unknown" }] := by
  have hsort : stableSortBy distLe
      [(dist2 (center2 c.bbox) (center2 n1.bbox), n1),
       (dist2 (center2 c.bbox) (center2 n2.bbox), n2)] =
      [(dist2 (center2 c.bbox) (center2 n1.bbox), n1),
       (dist2 (center2 c.bbox) (center2 n2.bbox), n2)] := by
    simp [stableSortBy, stableInsert, distLe, hclose]
  simp only [identifyEdges, List.filter, hconn, List.length_cons, List.length_nil,
    List.filterMap_cons, List.filterMap_nil, edgeForConnector, List.map_cons,
    List.map_nil, hsort]
  norm_num
  by_cases h1 : (center2 n1.bbox).2 < (center2 n2.bbox).2
  · simp [h1]
  · by_cases h2 : (center2 n1.bbox).1 < (center2 n2.bbox).1
    · simp [h1, h2, Int.not_lt.mp h1]
    · simp [h1, h2, Int.not_lt.mp h1]

/-- C5 witness: a connector between a higher-and-closer node X and a lower
node Y yields the edge from X to Y. -/
theorem c5_witness :
    identifyEdges [{ etype := "connector", bbox := ⟨0, 8, 0, 8⟩, text := "", elemId := none }]
        [{ nid := "X", label := "", ntype := "text_blob", bbox := ⟨0, 0, 10, 10⟩ },
         { nid := "Y", label := "", ntype := "text_blob", bbox := ⟨0, 20, 10, 30⟩ }] =
      [{ efrom := "X", eto := "Y", relation := "connected_to", connectorId := "unknown" }] :=
  (c5_amended_direction
      { etype := "connector", bbox := ⟨0, 8, 0, 8⟩, text := "", elemId := none }
      { nid := "X", label := "", ntype := "text_blob", bbox := ⟨0, 0, 10, 10⟩ }
      { nid := "Y", label := "", ntype := "text_blob", bbox := ⟨0, 20, 10, 30⟩ }
      (by decide) (by decide)).trans (by decide)

/-- Projection of a graph node onto its id-independent fields (label, type,
bbox), used to state determinism up to the random node ids. -/
def eraseId (n : GNode) : String × String × BBox := (n.label, n.ntype, n.bbox)

/-- Two node lists equal after eraseId agree on every bbox-only predicate;
the standalone-text containment check only reads bboxes. -/
theorem any_of_eraseId_eq (f : BBox → Bool) :
    ∀ nodes nodes2 : List GNode, nodes.map eraseId = nodes2.map eraseId →
      nodes.any (fun n => f n.bbox) = nodes2.any (fun n => f n.bbox) := by
  intro nodes
  induction nodes with
  | nil =>
    intro nodes2 h
    cases nodes2 with
    | nil => rfl
    | cons b l => simp at h
  | cons a rest ih =>
    intro nodes2 h
    cases nodes2 with
    | nil => simp at h
    | cons b rest2 =>
      simp only [List.map_cons, List.cons.injEq] at h
      have hbb : a.bbox = b.bbox := congrArg (fun p => p.2.2) h.1
      simp only [List.any_cons, hbb, ih rest2 h.2]

/-- The standalone-text loop preserves erased-id equality: starting from two
node lists equal up to ids, two different fresh-id streams (and counters)
produce node lists equal up to ids. -/
theorem addStandaloneText_eraseId (fresh fresh2 : Nat → String) (ts : List Elem) :
    ∀ (k k2 : Nat) (nodes nodes2 : List GNode),
      nodes.map eraseId = nodes2.map eraseId →
      (addStandaloneText fresh k nodes ts).map eraseId =
        (addStandaloneText fresh2 k2 nodes2 ts).map eraseId := by
  induction ts with
  | nil => intro k k2 nodes nodes2 h; simpa [addStandaloneText] using h
  | cons t ts ih =>
    intro k k2 nodes nodes2 h
    simp only [addStandaloneText]
    rw [any_of_eraseId_eq (centerStrictlyInside (center2 t.bbox)) nodes nodes2 h]
    split
    · exact ih _ _ _ _ h
    · exact ih _ _ _ _ (by simp [h, eraseId])

/-- C1 amended: the node identification of the diagram pipeline is
deterministic only up to the uuid draws — for any two fresh-id streams (two
runs), the node lists agree after erasing the ids (same labels, types and
bboxes in the same order); the ids themselves, and everything derived from
them (such as chunk ids), depend on the draws. -/
theorem c1_amended_deterministic_up_to_ids (fresh fresh2 : Nat → String)
    (elements : List Elem) :
    (identifyNodes fresh elements).map eraseId =
      (identifyNodes fresh2 elements).map eraseId := by
  simp only [identifyNodes]
  apply addStandaloneText_eraseId
  simp only [List.map_map]
  exact List.map_congr_left (fun p _ => rfl)

/-- C1 counterexample: two runs of the pipeline differ in the random uuid
stream, and on a fixed one-element input the produced node ids — and the
chunk id SchemaGenerator derives from the first node's id — differ between
the two runs; outputs are therefore not identical including node ids and
chunk ids. -/
theorem c1_counterexample :
    (identifyNodes (fun _ => "aaaaaaaa")
        [{ etype := "text_content", bbox := ⟨0, 0, 10, 10⟩, text := "hello", elemId := none }] ≠
     identifyNodes (fun _ => "bbbbbbbb")
        [{ etype := "text_content", bbox := ⟨0, 0, 10, 10⟩, text := "hello", elemId := none }]) ∧
    ((flushChunk (identifyNodes (fun _ => "aaaaaaaa")
        [{ etype := "text_content", bbox := ⟨0, 0, 10, 10⟩, text := "hello", elemId := none }])
        "img").chunkId ≠
     (flushChunk (identifyNodes (fun _ => "bbbbbbbb")
        [{ etype := "text_content", bbox := ⟨0, 0, 10, 10⟩, text := "hello", elemId := none }])
        "img").chunkId) := by
  decide

/-- Every edge surviving the rewiring has both (map-resolved) endpoints
among the surviving nodes' ids and distinct endpoints: the source keeps an
edge only under exactly these checks. -/
theorem rewireEdges_endpoints (tm dm : String → Option String) (nodes : List GNode)
    (edges : List GEdge) (e : REdge) (he : e ∈ rewireEdges tm dm nodes edges) :
    (∃ n ∈ nodes, n.nid = e.efrom) ∧ (∃ n ∈ nodes, n.nid = e.eto) ∧ e.efrom ≠ e.eto := by
  induction edges with
  | nil => simp [rewireEdges] at he
  | cons a rest ih =>
    simp only [rewireEdges] at he
    split at he
    · split at he
      · rename_i hcond oA oB nodeSrc nodeTgt hfs hft
        rcases List.mem_cons.mp he with rfl | hmem
        · have h1 := List.find?_some hfs
          have h2 := List.find?_some hft
          simp only [decide_eq_true_eq] at h1 h2
          simp only [Bool.and_eq_true, decide_eq_true_eq] at hcond
          exact ⟨⟨nodeSrc, List.mem_of_find?_eq_some hfs, h1⟩,
                 ⟨nodeTgt, List.mem_of_find?_eq_some hft, h2⟩, hcond.2⟩
        · exact ih hmem
      · exact ih he
    · exact ih he

/-- Each graph refine outputs is the refinement of some merged graph. -/
theorem mem_refine (graphs : List GraphObj) (mode : String) (g : RGraphObj)
    (hg : g ∈ refine graphs mode) : ∃ g0, g = refineSingleGraph g0 := by
  simp only [refine] at hg
  split at hg
  · simp at hg
  · rw [List.mem_filter] at hg
    obtain ⟨g0, _, rfl⟩ := List.mem_map.mp hg.1
    exact ⟨g0, rfl⟩

/-- C2: every edge of every canonical graph refine outputs — whatever the
input graph list, the merge mode, and hence whatever text-merge and dedup
maps the stages produced — has both of its (composed-map-resolved) endpoints
equal to ids of nodes present in that graph's node list; edges whose
resolved endpoints do not both survive were dropped by the guarding
membership test. -/
theorem c2_edge_endpoints_exist (graphs : List GraphObj) (mergeMode : String)
    (g : RGraphObj) (hg : g ∈ refine graphs mergeMode) (e : REdge) (he : e ∈ g.edges) :
    (∃ n ∈ g.nodes, n.nid = e.efrom) ∧ (∃ n ∈ g.nodes, n.nid = e.eto) := by
  obtain ⟨g0, rfl⟩ := mem_refine graphs mergeMode g hg
  simp only [refineSingleGraph] at he ⊢
  have h := rewireEdges_endpoints _ _ _ _ e he
  exact ⟨h.1, h.2.1⟩

/-- C2 witness: the concrete page-level run on one two-node graph produces
the edge from a to b, and both endpoints name surviving nodes. -/
theorem c2_witness :
    (∃ n ∈ ({ nodes := [{ nid := "a", label := "Data", ntype := "container",
                          bbox := ⟨0, 0, 10, 10⟩ },
                        { nid := "b", label := "Program", ntype := "container",
                          bbox := ⟨0, 20, 10, 30⟩ }],
              edges := [{ efrom := "a", eto := "b", relation := "input_to" }],
              source := "s", bbox := ⟨0, 0, 10, 30⟩ } : RGraphObj).nodes, n.nid = "a") ∧
    (∃ n ∈ ({ nodes := [{ nid := "a", label := "Data", ntype := "container",
                          bbox := ⟨0, 0, 10, 10⟩ },
                        { nid := "b", label := "Program", ntype := "container",
                          bbox := ⟨0, 20, 10, 30⟩ }],
              edges := [{ efrom := "a", eto := "b", relation := "input_to" }],
              source := "s", bbox := ⟨0, 0, 10, 30⟩ } : RGraphObj).nodes, n.nid = "b") :=
  c2_edge_endpoints_exist
    [{ nodes := [{ nid := "a", label := "Data", ntype := "container", bbox := ⟨0, 0, 10, 10⟩ },
                 { nid := "b", label := "Program", ntype := "container", bbox := ⟨0, 20, 10, 30⟩ }],
       edges := [{ efrom := "a", eto := "b", relation := "connected_to", connectorId := "u" }],
       source := "s", bbox := ⟨0, 0, 10, 30⟩ }]
    "page_level"
    { nodes := [{ nid := "a", label := "Data", ntype := "container", bbox := ⟨0, 0, 10, 10⟩ },
                { nid := "b", label := "Program", ntype := "container", bbox := ⟨0, 20, 10, 30⟩ }],
      edges := [{ efrom := "a", eto := "b", relation := "input_to" }],
      source := "s", bbox := ⟨0, 0, 10, 30⟩ }
    (by decide)
    { efrom := "a", eto := "b", relation := "input_to" }
    (by decide)

/-- No edge admitted by the edge-processing loop is a self-loop: the guard
requires the rewritten endpoints to differ. -/
theorem processEdgesAux_no_self (nm tm : String → Option String) (pids : List String)
    (sid : String) (es : List REdge) :
    ∀ (existing : List (String × String)) (e : CanonicalEdge),
      e ∈ processEdgesAux nm tm pids sid existing es → e.efrom ≠ e.eto := by
  induction es with
  | nil => intro existing e he; simp [processEdgesAux] at he
  | cons a rest ih =>
    intro existing e he
    simp only [processEdgesAux] at he
    split at he
    · rename_i src tgt _
      split at he
      · rename_i hguard
        split at he
        · split at he
          · exact ih existing e he
          · split at he
            · exact ih existing e he
            · rcases List.mem_cons.mp he with rfl | hmem
              · exact hguard.2.2
              · exact ih _ e hmem
        · exact ih existing e he
      · exact ih existing e he
    · exact ih existing e he

/-- Appending one non-self-loop edge preserves the no-self-loop property. -/
theorem no_self_append_one (es : List CanonicalEdge) (x : CanonicalEdge)
    (h : ∀ e ∈ es, e.efrom ≠ e.eto) (hx : x.efrom ≠ x.eto) :
    ∀ e ∈ es ++ [x], e.efrom ≠ e.eto := by
  intro e he
  rcases List.mem_append.mp he with h1 | h2
  · exact h e h1
  · rw [List.mem_singleton.mp h2]; exact hx

theorem injectDataEdge_no_self (nodeIds : List String) (lpId sid : String)
    (s : List CanonicalEdge × List (String × String)) (hlp : "data" ≠ lpId)
    (h : ∀ e ∈ s.1, e.efrom ≠ e.eto) :
    ∀ e ∈ (injectDataEdge nodeIds lpId sid s).1, e.efrom ≠ e.eto := by
  unfold injectDataEdge
  split
  · exact no_self_append_one _ _ h hlp
  · exact h

theorem injectLpModelEdge_no_self (nodeIds : List String) (lpId sid : String)
    (s : List CanonicalEdge × List (String × String)) (hlp : lpId ≠ "model")
    (h : ∀ e ∈ s.1, e.efrom ≠ e.eto) :
    ∀ e ∈ (injectLpModelEdge nodeIds lpId sid s).1, e.efrom ≠ e.eto := by
  unfold injectLpModelEdge
  split
  · exact no_self_append_one _ _ h hlp
  · exact h

/-- The subtype fold preserves the no-self-loop property for any subtype
list avoiding the literal model (which modelSubtypes does). -/
theorem injectSubtypeFold_no_self (nodeIds : List String) (sid : String)
    (existing : List (String × String)) (sts : List String)
    (hsts : ∀ st ∈ sts, "model" ≠ st) :
    ∀ es : List CanonicalEdge, (∀ e ∈ es, e.efrom ≠ e.eto) →
      ∀ e ∈ sts.foldl
        (fun es2 st =>
          if nodeIds.contains st && !existing.contains ("model", st) then
            es2 ++ [{ efrom := "model", eto := st, relation := "is_type_of",
                      confidence10 := 10, source := sid }]
          else es2)
        es, e.efrom ≠ e.eto := by
  induction sts with
  | nil => intro es h e he; exact h e he
  | cons st rest ih =>
    intro es h e he
    simp only [List.foldl_cons] at he
    refine ih (fun st2 hst2 => hsts st2 (List.mem_cons_of_mem st hst2)) _ ?_ e he
    intro e2 he2
    split at he2
    · exact no_self_append_one _ _ h (hsts st (List.mem_cons_self st rest)) e2 he2
    · exact h e2 he2

theorem injectSubtypeEdges_no_self (nodeIds : List String) (sid : String)
    (existing : List (String × String)) (es : List CanonicalEdge)
    (h : ∀ e ∈ es, e.efrom ≠ e.eto) :
    ∀ e ∈ injectSubtypeEdges nodeIds sid existing es, e.efrom ≠ e.eto := by
  unfold injectSubtypeEdges
  split
  · exact injectSubtypeFold_no_self nodeIds sid existing modelSubtypes (by decide) es h
  · exact h

theorem injectMlDefEdge_no_self (nodeIds : List String) (sid : String)
    (existing : List (String × String)) (es : List CanonicalEdge)
    (h : ∀ e ∈ es, e.efrom ≠ e.eto) :
    ∀ e ∈ injectMlDefEdge nodeIds sid existing es, e.efrom ≠ e.eto := by
  unfold injectMlDefEdge
  split
  · exact no_self_append_one _ _ h (by simp)
  · exact h

/-- No edge injectCoreEdges appends is a self-loop, and the edges it keeps
retain whatever no-self-loop property they had: the injected endpoint pairs
are distinct string literals in every branch and for either value of the
learning-program id. -/
theorem injectCoreEdges_no_self (nodes : List CanonicalNode) (edges : List CanonicalEdge)
    (existing : List (String × String)) (sid : String)
    (h : ∀ e2 ∈ edges, e2.efrom ≠ e2.eto) :
    ∀ e ∈ injectCoreEdges nodes edges existing sid, e.efrom ≠ e.eto := by
  unfold injectCoreEdges
  have hlp1 : ("data" : String) ≠
      (if (nodes.map (fun n => n.nodeId)).contains "learning_program" then "learning_program"
       else "data_learning_program") := by
    split <;> decide
  have hlp2 : (if (nodes.map (fun n => n.nodeId)).contains "learning_program" then
        ("learning_program" : String) else "data_learning_program") ≠ "model" := by
    split <;> decide
  exact injectMlDefEdge_no_self _ _ _ _
    (injectSubtypeEdges_no_self _ _ _ _
      (injectLpModelEdge_no_self _ _ _ _ hlp2
        (injectDataEdge_no_self _ _ _ _ hlp1 h)))

/-- C3: no self-loop edge is ever emitted — neither by GraphRefiner refine
(whatever input graphs and merge mode) nor by SchemaGenerator
generateGraphKnowledge (whatever surviving nodes and edges), injected core
structural edges included. -/
theorem c3_no_self_loops :
    (∀ (graphs : List GraphObj) (mode : String) (g : RGraphObj), g ∈ refine graphs mode →
       ∀ e ∈ g.edges, e.efrom ≠ e.eto) ∧
    (∀ (nodes : List GNode) (edges : List REdge) (sourceId : String),
       ∀ e ∈ (generateGraphKnowledge nodes edges sourceId).edges, e.efrom ≠ e.eto) := by
  constructor
  · intro graphs mode g hg e he
    obtain ⟨g0, rfl⟩ := mem_refine graphs mode g hg
    simp only [refineSingleGraph] at he
    exact (rewireEdges_endpoints _ _ _ _ e he).2.2
  · intro nodes edges sourceId e he
    simp only [generateGraphKnowledge] at he
    exact injectCoreEdges_no_self _ _ _ _
      (fun e2 he2 => processEdgesAux_no_self _ _ _ _ edges [] e2 he2) e he

/-- C3 witness: the concrete refined edge of the two-node page-level run is
not a self-loop. -/
theorem c3_witness : ("a" : String) ≠ "b" :=
  c3_no_self_loops.1
    [{ nodes := [{ nid := "a", label := "Data", ntype := "container", bbox := ⟨0, 0, 10, 10⟩ },
                 { nid := "b", label := "Program", ntype := "container", bbox := ⟨0, 20, 10, 30⟩ }],
       edges := [{ efrom := "a", eto := "b", relation := "connected_to", connectorId := "u" }],
       source := "s", bbox := ⟨0, 0, 10, 30⟩ }]
    "page_level"
    { nodes := [{ nid := "a", label := "Data", ntype := "container", bbox := ⟨0, 0, 10, 10⟩ },
                { nid := "b", label := "Program", ntype := "container", bbox := ⟨0, 20, 10, 30⟩ }],
      edges := [{ efrom := "a", eto := "b", relation := "input_to" }],
      source := "s", bbox := ⟨0, 0, 10, 30⟩ }
    (by decide)
    { efrom := "a", eto := "b", relation := "input_to" }
    (by decide)

/-! ## C4: conservation of regions through consolidation -/

theorem stableInsert_length (le : α → α → Bool) (a : α) (l : List α) :
    (stableInsert le a l).length = l.length + 1 := by
  induction l with
  | nil => rfl
  | cons b bs ih =>
    simp only [stableInsert]
    split <;> simp [ih]

theorem stableSortBy_length (le : α → α → Bool) (l : List α) :
    (stableSortBy le l).length = l.length := by
  induction l with
  | nil => rfl
  | cons a l ih => simp [stableSortBy, stableInsert_length, ih]

/-- Components of the index range, merged into diagram groups, carry every
region exactly once: element counts over the groups add up to the region
count. -/
theorem components_merge_sum (adj : Nat → Nat → Bool) (rs : List Elem) :
    ((connectedComponents adj rs.length).map
      (fun comp =>
        (mergeDiagramGroup (comp.map (fun i => rs.getD i dfltElem))).elements.length)).sum =
      rs.length := by
  calc ((connectedComponents adj rs.length).map
          (fun comp =>
            (mergeDiagramGroup (comp.map (fun i => rs.getD i dfltElem))).elements.length)).sum
      = ((connectedComponents adj rs.length).map List.length).sum := by
        congr 1
        apply List.map_congr_left
        intro comp _
        simp [mergeDiagramGroup]
    _ = (connectedComponents adj rs.length).flatten.length :=
        (List.length_flatten _).symm
    _ = (List.range rs.length).length :=
        (componentsAux_join_perm adj rs.length (List.range rs.length) (by simp)).length_eq
    _ = rs.length := by simp

/-- The diagram-clustering step drops and duplicates nothing: group element
counts add up to the input count. -/
theorem consolidateDiagrams_count (rs : List Elem) :
    ((consolidateDiagrams rs).map (fun g => g.elements.length)).sum = rs.length := by
  by_cases h : rs = []
  · subst h; simp [consolidateDiagrams]
  · simp only [consolidateDiagrams, if_neg h]
    rw [List.map_map]
    exact components_merge_sum _ rs

/-- Attaching a text region grows the total element count by one exactly
when the attachment succeeded. -/
theorem attachText_count (t : Elem) (gs : List DiagramGroup) :
    ((attachText t gs).1.map (fun g => g.elements.length)).sum =
      (gs.map (fun g => g.elements.length)).sum +
        (if (attachText t gs).2 then 1 else 0) := by
  induction gs with
  | nil => simp [attachText]
  | cons g rest ih =>
    simp only [attachText]
    split
    · simp [Nat.add_assoc, Nat.add_comm 1]
    · simp only [List.map_cons, List.sum_cons, ih]
      split <;> omega

/-- The attachment loop conserves counts: total group elements plus
remaining texts equals the starting totals plus the processed texts. -/
theorem assignTextsAux_count (ts : List Elem) :
    ∀ (gs : List DiagramGroup) (rem : List Elem),
      ((assignTextsAux (gs, rem) ts).1.map (fun g => g.elements.length)).sum +
        (assignTextsAux (gs, rem) ts).2.length =
      (gs.map (fun g => g.elements.length)).sum + rem.length + ts.length := by
  induction ts with
  | nil => intro gs rem; simp [assignTextsAux]
  | cons t ts ih =>
    intro gs rem
    simp only [assignTextsAux]
    have hat := attachText_count t gs
    by_cases h : (attachText t gs).2
    · rw [if_pos h]
      rw [h, if_pos rfl] at hat
      rw [ih]
      simp only [List.length_cons]
      omega
    · rw [if_neg h]
      rw [Bool.not_eq_true] at h
      rw [h] at hat
      simp only [Bool.false_eq_true, if_false] at hat
      rw [ih]
      simp only [List.length_append, List.length_cons, List.length_nil]
      omega

/-- The greedy paragraph grouping concatenates back to the sorted input. -/
theorem paraGroupsAux_flatten (rest : List Elem) :
    ∀ cur : List Elem, cur ≠ [] →
      (paraGroupsAux rest cur).flatten = cur.reverse ++ rest := by
  induction rest with
  | nil => intro cur h; simp [paraGroupsAux]
  | cons c rs ih =>
    intro cur h
    match cur with
    | p :: ps =>
      simp only [paraGroupsAux]
      split
      · rw [ih (c :: p :: ps) (by simp)]
        simp
      · simp only [List.flatten_cons]
        rw [ih [c] (by simp)]
        simp

theorem paraGroups_flatten (l : List Elem) :
    (paraGroups l).flatten = stableSortBy elemYle l := by
  simp only [paraGroups]
  split
  · rename_i heq
    simp [heq.symm]
  · rename_i r rest heq
    rw [paraGroupsAux_flatten rest [r] (by simp)]
    simp [heq.symm]

/-- The paragraph-merging step conserves the text-line count. -/
theorem consolidateText_count (l : List Elem) :
    ((consolidateText l).map (fun p => p.lines.length)).sum = l.length := by
  simp only [consolidateText, List.map_map]
  calc ((paraGroups l).map ((fun p => p.lines.length) ∘ mergeTextGroup)).sum
      = ((paraGroups l).map List.length).sum := by
        congr 1
        apply List.map_congr_left
        intro g _
        simp [mergeTextGroup, stableSortBy_length]
    _ = (paraGroups l).flatten.length := (List.length_flatten _).symm
    _ = (stableSortBy elemYle l).length := by rw [paraGroups_flatten]
    _ = l.length := stableSortBy_length _ _

/-- C4 counterexample: a detector region typed text_line is dropped by the
text filter of consolidate (OCR text is used instead), so with it as sole
input and no OCR text the output contains zero regions while the input
contained one — the total element count is not conserved as the claim
states it. -/
theorem c4_counterexample :
    ¬ ((((consolidate [{ etype := "text_line", bbox := ⟨0, 0, 10, 10⟩, text := "", elemId := none }]
            []).1.map (fun g => g.elements.length)).sum +
        (((consolidate [{ etype := "text_line", bbox := ⟨0, 0, 10, 10⟩, text := "", elemId := none }]
            []).2.map (fun p => p.lines.length)).sum)) =
       ([{ etype := "text_line", bbox := ⟨0, 0, 10, 10⟩, text := "", elemId := none }] : List Elem).length +
         ([] : List Elem).length) := by
  decide

/-- C4 amended: conservation holds for the regions consolidate actually
clusters — the structural detector regions (those whose type does not
contain "text"; text-typed detector regions are filtered out up front in
favor of the OCR stream) together with all OCR text regions: the element
counts of the output DiagramGroups plus the line counts merged into the
output TextParagraphs add up exactly to their number; none of those is
dropped or duplicated. -/
theorem c4_amended_conservation (diagramRegions textRegions : List Elem) :
    ((consolidate diagramRegions textRegions).1.map (fun g => g.elements.length)).sum +
      ((consolidate diagramRegions textRegions).2.map (fun p => p.lines.length)).sum =
    (diagramRegions.filter (fun r => !substrIn "text" r.etype)).length +
      textRegions.length := by
  simp only [consolidate, assignTexts]
  have h1 := consolidateDiagrams_count
    (diagramRegions.filter (fun r => !substrIn "text" r.etype))
  have h2 := assignTextsAux_count textRegions
    (consolidateDiagrams (diagramRegions.filter (fun r => !substrIn "text" r.etype))) []
  have h3 := consolidateText_count
    (assignTextsAux
      (consolidateDiagrams (diagramRegions.filter (fun r => !substrIn "text" r.etype)), [])
      textRegions).2
  simp only [List.length_nil] at h2
  omega

end HNP
